import Mathlib

/-
Verification of the SmartSecure report pipeline (src/SmartSecure).

The Python source is shallowly embedded: dictionaries with a fixed key set
become association lists, Python floats become exact rationals (every value
the score calculator can produce is an exact multiple of 1/10, so `round`
to one decimal place never depends on the float tie-breaking mode), and
operations that can raise (`dict[k] += 1` on a missing key, `element['name']`
on a missing key, Python `assert`) return `Option`/`Except`.
-/

set_option autoImplicit false

namespace SmartSecure

/-- Embedding of the `Vulnerability` dataclass of report.py (the `elements`
field of the dataclass is unused by the logic verified here; the raw
detector record carries the elements actually read). -/
structure Vulnerability where
  id : String
  check : String
  impact : String
  confidence : String
  description : String
deriving DecidableEq, Repr

/-- Embedding of the `Vulnerability_GPT` dataclass of report.py. -/
structure Vulnerability_GPT where
  id : String
  title : String
  explanation : String
deriving DecidableEq, Repr

/-- Embedding of the `SecurityScore` dataclass of report.py. Python floats
are embedded as exact rationals; `impact_counts` (a Python dict with a fixed
key set) is an association list in key-insertion order. -/
structure SecurityScore where
  total_score : ℚ
  impact_counts : List (String × ℕ)
  deployment_status : String
  total_deduction : ℚ
deriving DecidableEq, Repr

/-- `SecurityScoreCalculator.IMPACT_WEIGHTS` (report.py lines 80-86), as the
lookup `dict.get(impact)` with no default: `none` for a key not present. -/
def IMPACT_WEIGHTS (s : String) : Option ℚ :=
  if s = "High" then some 20
  else if s = "Medium" then some 10
  else if s = "Low" then some 5
  else if s = "Informational" then some 2
  else if s = "Optimization" then some 0
  else none

/-- `SecurityScoreCalculator.CONFIDENCE_MULTIPLIERS` (report.py lines 88-92). -/
def CONFIDENCE_MULTIPLIERS (s : String) : Option ℚ :=
  if s = "High" then some 1
  else if s = "Medium" then some (7/10)
  else if s = "Low" then some (2/5)
  else none

/-- `cls.IMPACT_WEIGHTS.get(vuln.impact, 1)` (report.py line 110). -/
def impact_weight (s : String) : ℚ := (IMPACT_WEIGHTS s).getD 1

/-- `cls.CONFIDENCE_MULTIPLIERS.get(vuln.confidence, 0.5)` (report.py line 111). -/
def confidence_multiplier (s : String) : ℚ := (CONFIDENCE_MULTIPLIERS s).getD (1/2)

/-- `{level.value: 0 for level in ImpactLevel}` (report.py lines 99, 104):
the tally dict initialised with exactly the five `ImpactLevel` values. -/
def initImpactCounts : List (String × ℕ) :=
  [("High", 0), ("Medium", 0), ("Low", 0), ("Informational", 0), ("Optimization", 0)]

/-- `impact_counts[vuln.impact] += 1` (report.py line 108): incrementing a
key of a Python dict raises `KeyError` when the key is absent, embedded as
`none`. -/
def incrCount : List (String × ℕ) → String → Option (List (String × ℕ))
  | [], _ => none
  | (k, n) :: rest, key =>
    if k = key then some ((k, n + 1) :: rest)
    else (incrCount rest key).map (fun r => (k, n) :: r)

/-- The `for vuln in vulnerabilities` loop of `SecurityScoreCalculator.calculate`
(report.py lines 107-113): threads the tally dict and the running
`total_deduction`; propagates the `KeyError` of the tally as `none`. -/
def calcLoop : List Vulnerability → List (String × ℕ) → ℚ →
    Option (List (String × ℕ) × ℚ)
  | [], counts, ded => some (counts, ded)
  | v :: vs, counts, ded =>
    match incrCount counts v.impact with
    | none => none
    | some counts' =>
      calcLoop vs counts' (ded + impact_weight v.impact * confidence_multiplier v.confidence)

/-- Python `round(x, 1)` on the exact rational value: all values reachable in
`calculate` are exact multiples of 1/10, on which every rounding mode is the
identity, so round-half-to-even and `round` agree everywhere this is applied. -/
def round1 (q : ℚ) : ℚ := (round (10 * q) : ℤ) / 10

/-- `SecurityScoreCalculator._get_deployment_status` (report.py lines 125-134). -/
def get_deployment_status (score : ℚ) : String :=
  if score ≥ 90 then "배포 권장 - 매우 안전함"
  else if score ≥ 70 then "주의하여 배포 가능 - 일부 취약점 존재"
  else if score ≥ 50 then "배포 전 수정 필요 - 중요한 취약점 존재"
  else "배포 금지 - 심각한 보안 위험 존재"

/-- `SecurityScoreCalculator.calculate` (report.py lines 94-123). Returns
`none` when the Python code raises (`KeyError` in the tally for an impact
outside the five `ImpactLevel` values). -/
def calculate (vulnerabilities : List Vulnerability) : Option SecurityScore :=
  match vulnerabilities with
  | [] =>
    some { total_score := 100, impact_counts := initImpactCounts,
           deployment_status := "배포 권장 - 매우 안전함", total_deduction := 0 }
  | _ :: _ =>
    match calcLoop vulnerabilities initImpactCounts 0 with
    | none => none
    | some (counts, total_deduction) =>
      let final_score : ℚ := max 0 (100 - total_deduction)
      some { total_score := round1 final_score,
             impact_counts := counts,
             deployment_status := get_deployment_status final_score,
             total_deduction := round1 total_deduction }

/-- The five `ImpactLevel` values of report.py lines 18-23. -/
def knownImpacts : List String := ["High", "Medium", "Low", "Informational", "Optimization"]

/-- The three `ConfidenceLevel` values of report.py lines 25-28. -/
def knownConfidences : List String := ["High", "Medium", "Low"]

/-- Specification-side formula (from the claim's words): the sum over the
findings of impact weight times confidence multiplier. -/
def specTotalDeduction (vs : List Vulnerability) : ℚ :=
  (vs.map (fun v => impact_weight v.impact * confidence_multiplier v.confidence)).sum

example : calculate [] = some ⟨100, initImpactCounts, "배포 권장 - 매우 안전함", 0⟩ := rfl

example : calculate [⟨"0", "c", "Weird", "High", "d"⟩] = none := by decide

lemma specTotalDeduction_nil : specTotalDeduction [] = 0 := rfl

lemma specTotalDeduction_cons (v : Vulnerability) (vs : List Vulnerability) :
    specTotalDeduction (v :: vs) =
      impact_weight v.impact * confidence_multiplier v.confidence + specTotalDeduction vs := by
  simp [specTotalDeduction]

lemma specTotalDeduction_append (xs ys : List Vulnerability) :
    specTotalDeduction (xs ++ ys) = specTotalDeduction xs + specTotalDeduction ys := by
  simp [specTotalDeduction]

lemma impact_weight_int (s : String) : ∃ a : ℤ, impact_weight s = (a : ℚ) := by
  unfold impact_weight IMPACT_WEIGHTS
  split_ifs
  · exact ⟨20, by norm_num⟩
  · exact ⟨10, by norm_num⟩
  · exact ⟨5, by norm_num⟩
  · exact ⟨2, by norm_num⟩
  · exact ⟨0, by norm_num⟩
  · exact ⟨1, by norm_num⟩

lemma confidence_multiplier_ten_int (s : String) :
    ∃ b : ℤ, (10 : ℚ) * confidence_multiplier s = (b : ℚ) := by
  unfold confidence_multiplier CONFIDENCE_MULTIPLIERS
  split_ifs
  · exact ⟨10, by norm_num⟩
  · exact ⟨7, by norm_num⟩
  · exact ⟨4, by norm_num⟩
  · exact ⟨5, by norm_num⟩

lemma ten_mul_specTotalDeduction_int (vs : List Vulnerability) :
    ∃ n : ℤ, (10 : ℚ) * specTotalDeduction vs = (n : ℚ) := by
  induction vs with
  | nil => exact ⟨0, by simp [specTotalDeduction]⟩
  | cons v vs ih =>
    obtain ⟨n, hn⟩ := ih
    obtain ⟨a, ha⟩ := impact_weight_int v.impact
    obtain ⟨b, hb⟩ := confidence_multiplier_ten_int v.confidence
    refine ⟨a * b + n, ?_⟩
    rw [specTotalDeduction_cons, mul_add, hn]
    have : (10 : ℚ) * (impact_weight v.impact * confidence_multiplier v.confidence) =
        impact_weight v.impact * ((10 : ℚ) * confidence_multiplier v.confidence) := by ring
    rw [this, ha, hb]
    push_cast
    ring

lemma round1_eq_self_of_int {q : ℚ} (n : ℤ) (h : (10 : ℚ) * q = (n : ℚ)) : round1 q = q := by
  unfold round1
  rw [h, round_intCast]
  rw [show (n : ℚ) = 10 * q from h.symm]
  field_simp

lemma ten_mul_final_score_int {d : ℚ} (n : ℤ) (h : (10 : ℚ) * d = (n : ℚ)) :
    (10 : ℚ) * max 0 (100 - d) = ((max 0 (1000 - n) : ℤ) : ℚ) := by
  push_cast
  rw [mul_max_of_nonneg _ _ (by norm_num : (0 : ℚ) ≤ 10)]
  congr 1
  · norm_num
  · rw [mul_sub]
    rw [← h]
    norm_num

lemma incrCount_keys {counts : List (String × ℕ)} {k : String} {counts' : List (String × ℕ)}
    (h : incrCount counts k = some counts') : counts'.map Prod.fst = counts.map Prod.fst := by
  induction counts generalizing counts' with
  | nil => simp [incrCount] at h
  | cons p rest ih =>
    obtain ⟨k0, n0⟩ := p
    by_cases hk : k0 = k
    · subst hk
      simp [incrCount] at h
      subst h
      simp
    · simp [incrCount, hk] at h
      obtain ⟨r, hr, hrest⟩ := h
      subst hrest
      simp [ih hr]

lemma incrCount_mem {counts : List (String × ℕ)} {k : String}
    (h : k ∈ counts.map Prod.fst) : ∃ counts', incrCount counts k = some counts' := by
  induction counts with
  | nil => simp at h
  | cons p rest ih =>
    obtain ⟨k0, n0⟩ := p
    by_cases hk : k0 = k
    · exact ⟨(k0, n0 + 1) :: rest, by simp [incrCount, hk]⟩
    · have : k ∈ rest.map Prod.fst := by
        simp at h
        rcases h with h | h
        · exact absurd h.symm hk
        · simpa using h
      obtain ⟨r, hr⟩ := ih this
      exact ⟨(k0, n0) :: r, by simp [incrCount, hk, hr]⟩

lemma incrCount_not_mem {counts : List (String × ℕ)} {k : String}
    (h : k ∉ counts.map Prod.fst) : incrCount counts k = none := by
  induction counts with
  | nil => rfl
  | cons p rest ih =>
    obtain ⟨k0, n0⟩ := p
    simp at h
    obtain ⟨hne, hrest⟩ := h
    simp [incrCount, Ne.symm hne, ih (by simpa using hrest)]

lemma calcLoop_eq_some (vs : List Vulnerability) :
    ∀ (counts : List (String × ℕ)) (ded : ℚ),
      (∀ v ∈ vs, v.impact ∈ counts.map Prod.fst) →
      ∃ counts', calcLoop vs counts ded = some (counts', ded + specTotalDeduction vs) ∧
        counts'.map Prod.fst = counts.map Prod.fst := by
  induction vs with
  | nil =>
    intro counts ded _
    exact ⟨counts, by simp [calcLoop, specTotalDeduction], rfl⟩
  | cons v vs ih =>
    intro counts ded h
    obtain ⟨counts1, h1⟩ := incrCount_mem (h v (List.mem_cons_self v vs))
    have hkeys := incrCount_keys h1
    have hrest : ∀ v' ∈ vs, v'.impact ∈ counts1.map Prod.fst := by
      intro v' hv'
      rw [hkeys]
      exact h v' (List.mem_cons_of_mem v hv')
    obtain ⟨counts', hloop, hkeys'⟩ :=
      ih counts1 (ded + impact_weight v.impact * confidence_multiplier v.confidence) hrest
    refine ⟨counts', ?_, hkeys'.trans hkeys⟩
    rw [specTotalDeduction_cons]
    simp only [calcLoop, h1]
    rw [hloop]
    ring_nf

lemma calcLoop_eq_none (vs : List Vulnerability) :
    ∀ (counts : List (String × ℕ)) (ded : ℚ),
      (∃ v ∈ vs, v.impact ∉ counts.map Prod.fst) →
      calcLoop vs counts ded = none := by
  induction vs with
  | nil => intro _ _ h; simp at h
  | cons v vs ih =>
    intro counts ded h
    obtain ⟨w, hw, hwk⟩ := h
    rcases List.mem_cons.mp hw with hv | hv
    · subst hv
      simp only [calcLoop, incrCount_not_mem hwk]
    · cases hinc : incrCount counts v.impact with
      | none => simp only [calcLoop, hinc]
      | some counts1 =>
        simp only [calcLoop, hinc]
        exact ih counts1 _ ⟨w, hv, by rw [incrCount_keys hinc]; exact hwk⟩

lemma initImpactCounts_keys : initImpactCounts.map Prod.fst = knownImpacts := rfl

lemma calculate_cons_eq {v : Vulnerability} {vs : List Vulnerability}
    {counts : List (String × ℕ)} {d : ℚ}
    (h : calcLoop (v :: vs) initImpactCounts 0 = some (counts, d)) :
    calculate (v :: vs) =
      some ⟨round1 (max 0 (100 - d)), counts,
        get_deployment_status (max 0 (100 - d)), round1 d⟩ := by
  simp only [calculate]
  rw [h]

lemma calculate_cons_none {v : Vulnerability} {vs : List Vulnerability}
    (h : calcLoop (v :: vs) initImpactCounts 0 = none) :
    calculate (v :: vs) = none := by
  simp only [calculate]
  rw [h]

/-- Closed form of `SecurityScoreCalculator.calculate` on sequences whose
impacts all lie among the five `ImpactLevel` values: the rounding to one
decimal place is the identity, because ten times every reachable deduction
is an integer. -/
lemma calculate_eq_of_known {vs : List Vulnerability}
    (h : ∀ v ∈ vs, v.impact ∈ knownImpacts) :
    ∃ counts, calculate vs =
      some ⟨max 0 (100 - specTotalDeduction vs), counts,
        get_deployment_status (max 0 (100 - specTotalDeduction vs)), specTotalDeduction vs⟩ := by
  obtain ⟨n, hn⟩ := ten_mul_specTotalDeduction_int vs
  have hded : round1 (specTotalDeduction vs) = specTotalDeduction vs :=
    round1_eq_self_of_int n hn
  have hfs : round1 (max 0 (100 - specTotalDeduction vs)) = max 0 (100 - specTotalDeduction vs) :=
    round1_eq_self_of_int _ (ten_mul_final_score_int n hn)
  cases vs with
  | nil =>
    refine ⟨initImpactCounts, ?_⟩
    have h0 : specTotalDeduction ([] : List Vulnerability) = 0 := rfl
    rw [h0]
    have hmax : max (0 : ℚ) (100 - 0) = 100 := by norm_num
    rw [hmax]
    have hst : get_deployment_status 100 = "배포 권장 - 매우 안전함" := by
      norm_num [get_deployment_status]
    rw [hst]
    rfl
  | cons v vs' =>
    have hkeys : ∀ w ∈ (v :: vs'), w.impact ∈ initImpactCounts.map Prod.fst := by
      rw [initImpactCounts_keys]; exact h
    obtain ⟨counts', hloop, _⟩ := calcLoop_eq_some (v :: vs') initImpactCounts 0 hkeys
    rw [zero_add] at hloop
    have hc := calculate_cons_eq hloop
    rw [hded, hfs] at hc
    exact ⟨counts', hc⟩

/-- `calculate` fails (raises `KeyError` in the tally, report.py line 108)
exactly when some finding's impact lies outside the five `ImpactLevel` values. -/
lemma calculate_none_iff (vs : List Vulnerability) :
    calculate vs = none ↔ ∃ v ∈ vs, v.impact ∉ knownImpacts := by
  constructor
  · intro h
    by_contra hno
    push_neg at hno
    obtain ⟨counts, hc⟩ := calculate_eq_of_known hno
    rw [hc] at h
    exact Option.some_ne_none _ h
  · intro h
    cases vs with
    | nil => obtain ⟨v, hv, _⟩ := h; simp at hv
    | cons v vs' =>
      have hloop : calcLoop (v :: vs') initImpactCounts 0 = none := by
        apply calcLoop_eq_none
        obtain ⟨w, hw, hwk⟩ := h
        exact ⟨w, hw, by rw [initImpactCounts_keys]; exact hwk⟩
      exact calculate_cons_none hloop

/-- If `calculate` returns a result, every impact in the input was one of the
five known levels (otherwise the tally would have raised `KeyError`). -/
lemma known_of_calculate_some {vs : List Vulnerability} {s : SecurityScore}
    (h : calculate vs = some s) : ∀ v ∈ vs, v.impact ∈ knownImpacts := by
  by_contra hno
  push_neg at hno
  rw [(calculate_none_iff vs).mpr hno] at h
  exact Option.noConfusion h

/-- Band characterization of `_get_deployment_status`, inclusive lower bounds. -/
lemma get_deployment_status_bands (x : ℚ) :
    (90 ≤ x → get_deployment_status x = "배포 권장 - 매우 안전함") ∧
    (70 ≤ x ∧ x < 90 → get_deployment_status x = "주의하여 배포 가능 - 일부 취약점 존재") ∧
    (50 ≤ x ∧ x < 70 → get_deployment_status x = "배포 전 수정 필요 - 중요한 취약점 존재") ∧
    (x < 50 → get_deployment_status x = "배포 금지 - 심각한 보안 위험 존재") := by
  unfold get_deployment_status
  refine ⟨fun h => ?_, fun h => ?_, fun h => ?_, fun h => ?_⟩ <;>
    split_ifs with h1 h2 h3 <;> first
      | rfl
      | (exfalso; rcases h with ⟨hl, hr⟩ <;> linarith)
      | (exfalso; linarith)

lemma calculate_single_high :
    ∃ s1, calculate [⟨"0", "reentrancy", "High", "High", "No description"⟩] = some s1 ∧
      s1.total_score = 80 ∧ s1.deployment_status = "주의하여 배포 가능 - 일부 취약점 존재" := by
  obtain ⟨counts, hc⟩ :=
    @calculate_eq_of_known [⟨"0", "reentrancy", "High", "High", "No description"⟩] (by decide)
  have hspec :
      specTotalDeduction [(⟨"0", "reentrancy", "High", "High", "No description"⟩ :
        Vulnerability)] = 20 := by
    rw [specTotalDeduction_cons, specTotalDeduction_nil]
    norm_num [impact_weight, confidence_multiplier, IMPACT_WEIGHTS, CONFIDENCE_MULTIPLIERS]
  rw [hspec] at hc
  have h80 : max (0 : ℚ) (100 - 20) = 80 := by norm_num
  rw [h80] at hc
  have hst : get_deployment_status 80 = "주의하여 배포 가능 - 일부 취약점 존재" :=
    (get_deployment_status_bands 80).2.1 ⟨by norm_num, by norm_num⟩
  exact ⟨_, hc, rfl, hst⟩

/-- C1: on findings with known impact and confidence levels, `calculate`
returns `totalDeduction` equal to the weighted sum (weights High=20,
Medium=10, Low=5, Informational=2, Optimization=0, unknown 1; multipliers
High=1.0, Medium=0.7, Low=0.4, unknown 0.5), rounded to one decimal place,
and `totalScore = max 0 (100 - totalDeduction)` rounded to one decimal
place; the empty sequence yields score 100.0, all five counts 0, the
"recommended - very safe" status, and deduction 0.0. -/
theorem c1_calculate_weighted_sum (vs : List Vulnerability)
    (himp : ∀ v ∈ vs, v.impact ∈ knownImpacts)
    (hconf : ∀ v ∈ vs, v.confidence ∈ knownConfidences) :
    ∃ s, calculate vs = some s ∧
      s.total_deduction = round1 (specTotalDeduction vs) ∧
      s.total_score = round1 (max 0 (100 - s.total_deduction)) ∧
      impact_weight "High" = 20 ∧ impact_weight "Medium" = 10 ∧ impact_weight "Low" = 5 ∧
      impact_weight "Informational" = 2 ∧ impact_weight "Optimization" = 0 ∧
      confidence_multiplier "High" = 1 ∧ confidence_multiplier "Medium" = 7/10 ∧
      confidence_multiplier "Low" = 2/5 ∧
      (∀ t, t ∉ knownImpacts → impact_weight t = 1) ∧
      (∀ t, t ∉ knownConfidences → confidence_multiplier t = 1/2) ∧
      calculate [] = some ⟨100, [("High", 0), ("Medium", 0), ("Low", 0),
        ("Informational", 0), ("Optimization", 0)], "배포 권장 - 매우 안전함", 0⟩ := by
  obtain ⟨n, hn⟩ := ten_mul_specTotalDeduction_int vs
  have hded : round1 (specTotalDeduction vs) = specTotalDeduction vs :=
    round1_eq_self_of_int n hn
  have hfs : round1 (max 0 (100 - specTotalDeduction vs)) = max 0 (100 - specTotalDeduction vs) :=
    round1_eq_self_of_int _ (ten_mul_final_score_int n hn)
  obtain ⟨counts, hc⟩ := calculate_eq_of_known himp
  refine ⟨_, hc, hded.symm, hfs.symm, rfl, rfl, rfl, rfl, rfl, rfl, rfl, rfl, ?_, ?_, rfl⟩
  · intro t ht
    simp only [knownImpacts, List.mem_cons, List.not_mem_nil, or_false] at ht
    push_neg at ht
    obtain ⟨h1, h2, h3, h4, h5⟩ := ht
    simp [impact_weight, IMPACT_WEIGHTS, h1, h2, h3, h4, h5]
  · intro t ht
    simp only [knownConfidences, List.mem_cons, List.not_mem_nil, or_false] at ht
    push_neg at ht
    obtain ⟨h1, h2, h3⟩ := ht
    simp [confidence_multiplier, CONFIDENCE_MULTIPLIERS, h1, h2, h3]

/-- Witness for C1 at the concrete one-finding input. -/
theorem c1_calculate_weighted_sum_witness :
    (∀ v ∈ [(⟨"0", "reentrancy", "High", "High", "No description"⟩ : Vulnerability)],
      v.impact ∈ knownImpacts) ∧
    (∀ v ∈ [(⟨"0", "reentrancy", "High", "High", "No description"⟩ : Vulnerability)],
      v.confidence ∈ knownConfidences) ∧
    (∃ s, calculate [(⟨"0", "reentrancy", "High", "High", "No description"⟩ : Vulnerability)] =
        some s ∧
      s.total_deduction =
        round1 (specTotalDeduction
          [(⟨"0", "reentrancy", "High", "High", "No description"⟩ : Vulnerability)]) ∧
      s.total_score = round1 (max 0 (100 - s.total_deduction)) ∧
      impact_weight "High" = 20 ∧ impact_weight "Medium" = 10 ∧ impact_weight "Low" = 5 ∧
      impact_weight "Informational" = 2 ∧ impact_weight "Optimization" = 0 ∧
      confidence_multiplier "High" = 1 ∧ confidence_multiplier "Medium" = 7/10 ∧
      confidence_multiplier "Low" = 2/5 ∧
      (∀ t, t ∉ knownImpacts → impact_weight t = 1) ∧
      (∀ t, t ∉ knownConfidences → confidence_multiplier t = 1/2) ∧
      calculate [] = some ⟨100, [("High", 0), ("Medium", 0), ("Low", 0),
        ("Informational", 0), ("Optimization", 0)], "배포 권장 - 매우 안전함", 0⟩) :=
  ⟨by decide, by decide,
    c1_calculate_weighted_sum [⟨"0", "reentrancy", "High", "High", "No description"⟩]
      (by decide) (by decide)⟩

/-- C2: whenever `calculate` succeeds, the deployment status is determined by
the returned total score with inclusive lower bounds at 90, 70 and 50; in
particular one High/High finding yields score 80.0 in the
"deployable with caution" band. -/
theorem c2_deployment_status_bands (vs : List Vulnerability) (s : SecurityScore)
    (h : calculate vs = some s) :
    s.deployment_status = get_deployment_status s.total_score ∧
    (90 ≤ s.total_score → s.deployment_status = "배포 권장 - 매우 안전함") ∧
    (70 ≤ s.total_score ∧ s.total_score < 90 →
      s.deployment_status = "주의하여 배포 가능 - 일부 취약점 존재") ∧
    (50 ≤ s.total_score ∧ s.total_score < 70 →
      s.deployment_status = "배포 전 수정 필요 - 중요한 취약점 존재") ∧
    (s.total_score < 50 → s.deployment_status = "배포 금지 - 심각한 보안 위험 존재") ∧
    (∃ s1, calculate [⟨"0", "reentrancy", "High", "High", "No description"⟩] = some s1 ∧
      s1.total_score = 80 ∧
      s1.deployment_status = "주의하여 배포 가능 - 일부 취약점 존재") := by
  have hk := known_of_calculate_some h
  obtain ⟨counts, hc⟩ := calculate_eq_of_known hk
  rw [h] at hc
  have hs := Option.some.inj hc
  subst hs
  obtain ⟨b1, b2, b3, b4⟩ := get_deployment_status_bands (max 0 (100 - specTotalDeduction vs))
  exact ⟨rfl, b1, b2, b3, b4, calculate_single_high⟩

/-- Witness for C2 at the empty finding sequence. -/
theorem c2_deployment_status_bands_witness :
    calculate [] = some ⟨100, initImpactCounts, "배포 권장 - 매우 안전함", 0⟩ ∧
    "배포 권장 - 매우 안전함" = get_deployment_status (100 : ℚ) :=
  ⟨rfl, (c2_deployment_status_bands []
    ⟨100, initImpactCounts, "배포 권장 - 매우 안전함", 0⟩ rfl).1⟩

/-- C3 counterexample: a finding whose impact is outside the five known
levels makes `calculate` raise `KeyError` in the `impactCounts` tally
(embedded: return `none`), so no `ScoreResult` is returned. -/
theorem c3_unknown_impact_counterexample :
    calculate [⟨"0", "c", "Weird", "High", "d"⟩] = none := by decide

/-- C3 amended: for every finding sequence containing a finding whose impact
string is outside the five known levels, `calculate` crashes with a lookup
error in the `impactCounts` tally and returns no `ScoreResult` (the weight
lookup's default of 1 is never reached for that finding). -/
theorem c3_unknown_impact_raises (vs : List Vulnerability)
    (h : ∃ v ∈ vs, v.impact ∉ knownImpacts) : calculate vs = none :=
  (calculate_none_iff vs).mpr h

/-- Witness for the amended C3 at a concrete input. -/
theorem c3_unknown_impact_raises_witness :
    (∃ v ∈ [(⟨"1", "c", "Weird", "High", "d"⟩ : Vulnerability)], v.impact ∉ knownImpacts) ∧
    calculate [(⟨"1", "c", "Weird", "High", "d"⟩ : Vulnerability)] = none :=
  ⟨by decide, c3_unknown_impact_raises [⟨"1", "c", "Weird", "High", "d"⟩] (by decide)⟩

/-- C7: appending one more High-impact/High-confidence finding to a sequence
on which `calculate` succeeds never increases the total score. -/
theorem c7_append_high_finding_monotone (vs : List Vulnerability) (s : SecurityScore)
    (i c d : String) (h : calculate vs = some s) :
    ∃ s', calculate (vs ++ [⟨i, c, "High", "High", d⟩]) = some s' ∧
      s'.total_score ≤ s.total_score := by
  have hk := known_of_calculate_some h
  have hk' : ∀ v ∈ vs ++ [(⟨i, c, "High", "High", d⟩ : Vulnerability)],
      v.impact ∈ knownImpacts := by
    intro v hv
    rcases List.mem_append.mp hv with hv | hv
    · exact hk v hv
    · simp at hv
      subst hv
      exact (show "High" ∈ knownImpacts by decide)
  obtain ⟨counts1, hc1⟩ := calculate_eq_of_known hk
  obtain ⟨counts2, hc2⟩ := calculate_eq_of_known hk'
  rw [h] at hc1
  have hs := Option.some.inj hc1
  have hspec : specTotalDeduction (vs ++ [(⟨i, c, "High", "High", d⟩ : Vulnerability)]) =
      specTotalDeduction vs + 20 := by
    rw [specTotalDeduction_append, specTotalDeduction_cons, specTotalDeduction_nil]
    norm_num [impact_weight, confidence_multiplier, IMPACT_WEIGHTS, CONFIDENCE_MULTIPLIERS]
  rw [hspec] at hc2
  refine ⟨_, hc2, ?_⟩
  rw [hs]
  exact max_le_max le_rfl (by linarith)

/-- Witness for C7 at the empty finding sequence. -/
theorem c7_append_high_finding_monotone_witness :
    calculate [] = some ⟨100, initImpactCounts, "배포 권장 - 매우 안전함", 0⟩ ∧
    ∃ s', calculate ([] ++ [(⟨"9", "c", "High", "High", "d"⟩ : Vulnerability)]) = some s' ∧
      s'.total_score ≤ 100 :=
  ⟨rfl, c7_append_high_finding_monotone []
    ⟨100, initImpactCounts, "배포 권장 - 매우 안전함", 0⟩ "9" "c" "d" rfl⟩

/-- The `source_mapping` sub-dictionary of an element, restricted to the one
key read by `_extract_code_locations`: `lines`, embedded as the display form
of its value (`none` = key absent, read with default "Unknown"). -/
structure SourceMapping where
  lines : Option String
deriving DecidableEq, Repr

/-- One entry of a raw detector's `elements` list, restricted to the keys
read by `_extract_code_locations`: `source_mapping` (`none` = key absent)
and `name` (`none` = key absent; read with `element['name']`, which raises
`KeyError` when absent). -/
structure Element where
  source_mapping : Option SourceMapping
  name : Option String
deriving DecidableEq, Repr

/-- A raw Slither detector record, restricted to the `elements` key read by
`_extract_code_locations` via `raw_data.get('elements', [])` (`none` = key
absent). -/
structure RawDetector where
  elements : Option (List Element)
deriving DecidableEq, Repr

/-- The `for element in elements` loop of
`VulnerabilityDetailProcessor._extract_code_locations` (report.py lines
176-181): elements without `source_mapping` are skipped; an element with
`source_mapping` but no `name` raises `KeyError` (embedded as `none`); a
missing `lines` defaults to "Unknown". -/
def extract_loop : List Element → Option (List String)
  | [] => some []
  | e :: rest =>
    match e.source_mapping with
    | none => extract_loop rest
    | some source_info =>
      match e.name with
      | none => none
      | some filename =>
        (extract_loop rest).map
          (fun ls => ("name: " ++ filename ++ ", 라인: " ++ source_info.lines.getD "Unknown") :: ls)

/-- `VulnerabilityDetailProcessor._extract_code_locations` (report.py lines
171-183). -/
def extract_code_locations (raw_data : RawDetector) : Option (List String) :=
  extract_loop (raw_data.elements.getD [])

/-- `VulnerabilityDetailProcessor._get_reference_links` (report.py lines
185-190). -/
def get_reference_links (check_name : String) : List String :=
  ["https://github.com/crytic/slither/wiki/Detector-Documentation#" ++
    ((check_name.toLower).replace " " "-")]

/-- Embedding of the `VulnerabilityDetail` dataclass of report.py. -/
structure VulnerabilityDetail where
  vulnerability : Vulnerability
  code_locations : List String
  technical_explanation : String
  personalized_explanation : String
  reference_links : List String
deriving DecidableEq, Repr

/-- `VulnerabilityDetailProcessor.process` (report.py lines 154-169);
propagates the `KeyError` of `_extract_code_locations` as `none`. -/
def process (vulnerability : Vulnerability) (raw_data : RawDetector)
    (vulnerability_gpt : Vulnerability_GPT) : Option VulnerabilityDetail :=
  match extract_code_locations raw_data with
  | none => none
  | some code_locations =>
    some { vulnerability := vulnerability,
           code_locations := code_locations,
           technical_explanation :=
             "이 취약점은 " ++ vulnerability.check ++ " (" ++ vulnerability_gpt.title ++
               ") 유형으로, " ++ vulnerability.impact ++ " 수준의 위험도를 가집니다.",
           personalized_explanation := vulnerability_gpt.explanation,
           reference_links := get_reference_links vulnerability.check }

/-- The `for vuln, raw, gpt in zip(...)` loop of `ReportService.generate_report`
(report.py lines 513-518): Python `zip` truncates to the shortest sequence;
each iteration first runs `assert vuln.id == gpt.id` (failure embedded as
`none`), then builds the detail. -/
def reportDetails : List Vulnerability → List RawDetector → List Vulnerability_GPT →
    Option (List VulnerabilityDetail)
  | v :: vs, r :: rs, g :: gs =>
    if v.id = g.id then
      match process v r g with
      | none => none
      | some d => (reportDetails vs rs gs).map (fun ds => d :: ds)
    else none
  | _, _, _ => some []

/-- One step of `impact_groups.setdefault(impact, []).append(detail)`
(report.py line 410) on the insertion-ordered dict, embedded as an
association list: append to the existing group of the key, or add a new
key at the end. -/
def addToGroups {α : Type} : List (String × List α) → String → α → List (String × List α)
  | [], k, a => [(k, [a])]
  | (k0, l) :: rest, k, a =>
    if k0 = k then (k0, l ++ [a]) :: rest else (k0, l) :: addToGroups rest k a

/-- The grouping loop of `StreamlitReportRenderer.render_vulnerabilities_section`
(report.py lines 407-410), generic in the grouped type. -/
def groupByKey {α : Type} (kf : α → String) (xs : List α) : List (String × List α) :=
  xs.foldl (fun gs a => addToGroups gs (kf a) a) []

/-- `impact_groups` of report.py lines 407-410: details grouped by
`detail.vulnerability.impact` in dict insertion order. -/
def impact_groups (vulnerability_details : List VulnerabilityDetail) :
    List (String × List VulnerabilityDetail) :=
  groupByKey (fun d => d.vulnerability.impact) vulnerability_details

/-- Specification-side helper (from the spec's words): the keys of a list in
first-seen order. -/
def firstSeenOrder (l : List String) : List String :=
  l.foldl (fun acc k => if k ∈ acc then acc else acc ++ [k]) []

/-- The data handed from `ReportService.generate_report` to the renderer:
the security score, the summary string and the details grouped by impact. -/
structure ReportPayload where
  security_score : SecurityScore
  summary : String
  grouped_details : List (String × List VulnerabilityDetail)
deriving DecidableEq, Repr

/-- The data pipeline of `ReportService.generate_report` (report.py lines
497-522) on already-parsed sequences, composed with the renderer's impact
grouping: compute the score, build the details over the zipped triples, and
group them; any Python exception on the way (the tally `KeyError`, the
`assert`, the location `KeyError`) is embedded as `none`, so no report is
rendered. -/
def generate_report (vulnerabilities : List Vulnerability)
    (raw_detectors : List RawDetector) (vulnerabilities_gpt : List Vulnerability_GPT)
    (summary_gpt : String) : Option ReportPayload :=
  match calculate vulnerabilities with
  | none => none
  | some security_score =>
    match reportDetails vulnerabilities raw_detectors vulnerabilities_gpt with
    | none => none
    | some vulnerability_details =>
      some ⟨security_score, summary_gpt, impact_groups vulnerability_details⟩

lemma extract_loop_none_of_missing_name {elems : List Element}
    (h : ∃ e ∈ elems, e.source_mapping.isSome ∧ e.name = none) :
    extract_loop elems = none := by
  induction elems with
  | nil => obtain ⟨e, he, _⟩ := h; simp at he
  | cons e rest ih =>
    obtain ⟨w, hw, hsm, hnm⟩ := h
    rcases List.mem_cons.mp hw with hw | hw
    · subst hw
      obtain ⟨sm, hsm'⟩ := Option.isSome_iff_exists.mp hsm
      simp only [extract_loop, hsm', hnm]
    · have hrest : extract_loop rest = none := ih ⟨w, hw, hsm, hnm⟩
      cases hsm' : e.source_mapping with
      | none => simp only [extract_loop, hsm']; exact hrest
      | some sm =>
        cases hnm' : e.name with
        | none => simp only [extract_loop, hsm', hnm']
        | some nm => simp only [extract_loop, hsm', hnm', hrest, Option.map_none']

lemma extract_loop_some_of_names {elems : List Element}
    (h : ∀ e ∈ elems, e.source_mapping.isSome → e.name.isSome) :
    extract_loop elems =
      some (elems.filterMap (fun e =>
        match e.source_mapping, e.name with
        | some sm, some nm =>
          some ("name: " ++ nm ++ ", 라인: " ++ sm.lines.getD "Unknown")
        | _, _ => none)) := by
  induction elems with
  | nil => rfl
  | cons e rest ih =>
    have hrest := ih (fun x hx => h x (List.mem_cons_of_mem e hx))
    cases hsm : e.source_mapping with
    | none => simp only [extract_loop, hsm, List.filterMap_cons, hrest]
    | some sm =>
      have hnm := h e (List.mem_cons_self e rest) (by simp [hsm])
      obtain ⟨nm, hnm'⟩ := Option.isSome_iff_exists.mp hnm
      simp only [extract_loop, hsm, hnm', hrest, Option.map_some', List.filterMap_cons]

/-- C10: code-location extraction requires every element that has a
`source_mapping` key to also have a `name` key: if some element has a
source mapping but no name, `_extract_code_locations` raises `KeyError`
(embedded: returns `none`); otherwise it succeeds, skipping exactly the
elements without `source_mapping` and defaulting a missing `lines` to
"Unknown". -/
theorem c10_extract_requires_name (raw_data : RawDetector) :
    ((∃ e ∈ raw_data.elements.getD [], e.source_mapping.isSome ∧ e.name = none) →
      extract_code_locations raw_data = none) ∧
    ((∀ e ∈ raw_data.elements.getD [], e.source_mapping.isSome → e.name.isSome) →
      extract_code_locations raw_data =
        some ((raw_data.elements.getD []).filterMap (fun e =>
          match e.source_mapping, e.name with
          | some sm, some nm =>
            some ("name: " ++ nm ++ ", 라인: " ++ sm.lines.getD "Unknown")
          | _, _ => none))) :=
  ⟨fun h => extract_loop_none_of_missing_name h,
   fun h => extract_loop_some_of_names h⟩

/-- Witness for C10: a record with a mapped element missing `name` raises;
a record whose mapped elements all carry `name` succeeds, skipping the
unmapped element and defaulting the missing `lines`. -/
theorem c10_extract_requires_name_witness :
    ((∃ e ∈ (RawDetector.mk (some [⟨some ⟨some "12"⟩, none⟩])).elements.getD [],
        e.source_mapping.isSome ∧ e.name = none) ∧
      extract_code_locations ⟨some [⟨some ⟨some "12"⟩, none⟩]⟩ = none) ∧
    ((∀ e ∈ (RawDetector.mk (some [⟨none, none⟩, ⟨some ⟨none⟩, some "C"⟩])).elements.getD [],
        e.source_mapping.isSome → e.name.isSome) ∧
      extract_code_locations ⟨some [⟨none, none⟩, ⟨some ⟨none⟩, some "C"⟩]⟩ =
        some ["name: C, 라인: Unknown"]) :=
  ⟨⟨by decide, (c10_extract_requires_name ⟨some [⟨some ⟨some "12"⟩, none⟩]⟩).1 (by decide)⟩,
   ⟨by decide, (c10_extract_requires_name ⟨some [⟨none, none⟩, ⟨some ⟨none⟩, some "C"⟩]⟩).2
      (by decide)⟩⟩

lemma mem_firstSeen_foldl (l : List String) :
    ∀ (acc : List String) (a : String),
      (a ∈ l.foldl (fun acc k => if k ∈ acc then acc else acc ++ [k]) acc) ↔ a ∈ acc ∨ a ∈ l := by
  induction l with
  | nil => intro acc a; simp
  | cons k l ih =>
    intro acc a
    rw [List.foldl_cons, ih]
    by_cases hk : k ∈ acc
    · simp only [if_pos hk, List.mem_cons]
      constructor
      · rintro (h | h)
        · exact Or.inl h
        · exact Or.inr (Or.inr h)
      · rintro (h | h | h)
        · exact Or.inl h
        · subst h; exact Or.inl hk
        · exact Or.inr h
    · simp only [if_neg hk, List.mem_append, List.mem_cons, List.mem_singleton,
        List.not_mem_nil, or_false]
      tauto

lemma mem_firstSeenOrder {l : List String} {a : String} :
    a ∈ firstSeenOrder l ↔ a ∈ l := by
  unfold firstSeenOrder
  rw [mem_firstSeen_foldl]
  simp

lemma nodup_firstSeen_foldl (l : List String) :
    ∀ (acc : List String), acc.Nodup →
      (l.foldl (fun acc k => if k ∈ acc then acc else acc ++ [k]) acc).Nodup := by
  induction l with
  | nil => intro acc h; simpa using h
  | cons k l ih =>
    intro acc h
    rw [List.foldl_cons]
    by_cases hk : k ∈ acc
    · rw [if_pos hk]; exact ih acc h
    · rw [if_neg hk]
      refine ih _ ?_
      simp [List.nodup_append, h, hk]

lemma nodup_firstSeenOrder (l : List String) : (firstSeenOrder l).Nodup :=
  nodup_firstSeen_foldl l [] List.nodup_nil

lemma firstSeenOrder_append_singleton (l : List String) (k : String) :
    firstSeenOrder (l ++ [k]) =
      if k ∈ l then firstSeenOrder l else firstSeenOrder l ++ [k] := by
  unfold firstSeenOrder
  rw [List.foldl_append, List.foldl_cons, List.foldl_nil]
  by_cases hk : k ∈ l
  · rw [if_pos hk, if_pos]
    rw [show (List.foldl (fun acc k => if k ∈ acc then acc else acc ++ [k]) [] l) =
      firstSeenOrder l from rfl]
    exact mem_firstSeenOrder.mpr hk
  · rw [if_neg hk, if_neg]
    rw [show (List.foldl (fun acc k => if k ∈ acc then acc else acc ++ [k]) [] l) =
      firstSeenOrder l from rfl]
    intro hmem
    exact hk (mem_firstSeenOrder.mp hmem)

lemma addToGroups_map_of_mem {α : Type} {ks : List String} (f : String → List α)
    {k : String} (a : α) (hnd : ks.Nodup) (hk : k ∈ ks) :
    addToGroups (ks.map fun j => (j, f j)) k a =
      ks.map fun j => (j, f j ++ if j = k then [a] else []) := by
  induction ks with
  | nil => simp at hk
  | cons k0 ks ih =>
    simp only [List.map_cons, addToGroups]
    by_cases h0 : k0 = k
    · subst h0
      rw [if_pos rfl]
      have hnotin : k0 ∉ ks := (List.nodup_cons.mp hnd).1
      have : ks.map (fun j => (j, f j ++ if j = k0 then [a] else [])) =
          ks.map (fun j => (j, f j)) := by
        apply List.map_congr_left
        intro j hj
        have : j ≠ k0 := fun hc => hnotin (hc ▸ hj)
        simp [this]
      rw [this, if_pos rfl]
    · rw [if_neg h0, if_neg h0]
      have hk' : k ∈ ks := by
        rcases List.mem_cons.mp hk with h | h
        · exact absurd h.symm h0
        · exact h
      rw [ih (List.nodup_cons.mp hnd).2 hk']
      simp

lemma addToGroups_map_of_not_mem {α : Type} {ks : List String} (f : String → List α)
    {k : String} (a : α) (hk : k ∉ ks) :
    addToGroups (ks.map fun j => (j, f j)) k a =
      (ks.map fun j => (j, f j)) ++ [(k, [a])] := by
  induction ks with
  | nil => rfl
  | cons k0 ks ih =>
    have h0 : k0 ≠ k := fun hc => hk (hc ▸ List.mem_cons_self k0 ks)
    simp only [List.map_cons, addToGroups, if_neg h0, List.cons_append]
    rw [ih (fun hc => hk (List.mem_cons_of_mem k0 hc))]

/-- Closed form of the renderer's grouping loop: the keys appear in
first-seen order and each group is the in-order sublist of the inputs with
that key. -/
lemma groupByKey_closed_form {α : Type} (kf : α → String) (xs : List α) :
    groupByKey kf xs =
      (firstSeenOrder (xs.map kf)).map
        (fun k => (k, xs.filter (fun a => kf a = k))) := by
  induction xs using List.reverseRecOn with
  | nil => rfl
  | append_singleton xs a ih =>
    have hstep : groupByKey kf (xs ++ [a]) = addToGroups (groupByKey kf xs) (kf a) a := by
      unfold groupByKey
      rw [List.foldl_append, List.foldl_cons, List.foldl_nil]
    rw [hstep, ih, List.map_append, List.map_singleton, firstSeenOrder_append_singleton]
    by_cases hmem : kf a ∈ xs.map kf
    · rw [if_pos hmem]
      rw [addToGroups_map_of_mem _ a (nodup_firstSeenOrder _) (mem_firstSeenOrder.mpr hmem)]
      apply List.map_congr_left
      intro j hj
      simp only [Prod.mk.injEq, true_and]
      rw [List.filter_append]
      congr 1
      by_cases hja : j = kf a
      · subst hja; simp
      · have hja' : ¬ kf a = j := fun hc => hja hc.symm
        simp [hja, hja']
    · rw [if_neg hmem]
      rw [addToGroups_map_of_not_mem _ a (fun hc => hmem (mem_firstSeenOrder.mp hc))]
      rw [List.map_append, List.map_singleton]
      congr 1
      · apply List.map_congr_left
        intro j hj
        have hjmem : j ∈ xs.map kf := mem_firstSeenOrder.mp hj
        have hja : ¬ kf a = j := fun hc => hmem (by rw [hc]; exact hjmem)
        simp only [Prod.mk.injEq, true_and]
        rw [List.filter_append]
        have hfa : List.filter (fun x => decide (kf x = j)) [a] = [] := by simp [hja]
        rw [hfa, List.append_nil]
      · have h1 : List.filter (fun x => decide (kf x = kf a)) xs = [] := by
          rw [List.filter_eq_nil_iff]
          intro b hb
          simp only [decide_eq_true_eq]
          intro hc
          exact hmem (by rw [← hc]; exact List.mem_map_of_mem kf hb)
        simp [List.filter_append, h1]

lemma process_isSome_iff (v : Vulnerability) (r : RawDetector) (g : Vulnerability_GPT) :
    (process v r g).isSome ↔ (extract_code_locations r).isSome := by
  unfold process
  cases extract_code_locations r <;> simp

lemma process_vulnerability {v : Vulnerability} {r : RawDetector} {g : Vulnerability_GPT}
    {d : VulnerabilityDetail} (h : process v r g = some d) : d.vulnerability = v := by
  unfold process at h
  cases hx : extract_code_locations r with
  | none => rw [hx] at h; exact Option.noConfusion h
  | some locs =>
    rw [hx] at h
    have := Option.some.inj h
    rw [← this]

/-- When the detail-building loop succeeds, the details are the zipped
triples in input order: no reordering anywhere. -/
lemma reportDetails_in_input_order :
    ∀ (vs : List Vulnerability) (raws : List RawDetector) (gs : List Vulnerability_GPT)
      (ds : List VulnerabilityDetail), reportDetails vs raws gs = some ds →
      ds.map (fun d => d.vulnerability) = (vs.zip (raws.zip gs)).map (fun p => p.1) := by
  intro vs
  induction vs with
  | nil => intro raws gs ds h; simp [reportDetails] at h; subst h; simp
  | cons v vs ih =>
    intro raws gs ds h
    cases raws with
    | nil => simp [reportDetails] at h; subst h; simp
    | cons r rs =>
      cases gs with
      | nil => simp [reportDetails] at h; subst h; simp
      | cons g gs =>
        by_cases hid : v.id = g.id
        · rw [show reportDetails (v :: vs) (r :: rs) (g :: gs) =
            (if v.id = g.id then
              match process v r g with
              | none => none
              | some d => (reportDetails vs rs gs).map (fun ds => d :: ds)
            else none) from rfl, if_pos hid] at h
          cases hp : process v r g with
          | none => rw [hp] at h; exact Option.noConfusion h
          | some d =>
            rw [hp] at h
            rcases Option.map_eq_some'.mp h with ⟨ds', hds', rfl⟩
            simp only [List.map_cons, List.zip_cons_cons]
            rw [process_vulnerability hp, ih rs gs ds' hds']
        · rw [show reportDetails (v :: vs) (r :: rs) (g :: gs) =
            (if v.id = g.id then
              match process v r g with
              | none => none
              | some d => (reportDetails vs rs gs).map (fun ds => d :: ds)
            else none) from rfl, if_neg hid] at h
          exact Option.noConfusion h

/-- C6: grouping by impact preserves the first-seen order of impact levels
and the input order inside each group (each group is the in-order filter of
the input), the concrete `[High, Low, High]` example groups as
`{High: [f1, f3], Low: [f2]}`, and the pipeline applies no severity
re-sorting: details built by `generate_report`'s loop keep the zipped input
order. -/
theorem c6_grouping_preserves_input_order (details : List VulnerabilityDetail) :
    impact_groups details =
      (firstSeenOrder (details.map (fun d => d.vulnerability.impact))).map
        (fun k => (k, details.filter (fun d => d.vulnerability.impact = k))) ∧
    impact_groups
        [⟨⟨"1", "c1", "High", "High", "d1"⟩, [], "t1", "p1", []⟩,
         ⟨⟨"2", "c2", "Low", "High", "d2"⟩, [], "t2", "p2", []⟩,
         ⟨⟨"3", "c3", "High", "High", "d3"⟩, [], "t3", "p3", []⟩] =
      [("High", [⟨⟨"1", "c1", "High", "High", "d1"⟩, [], "t1", "p1", []⟩,
                 ⟨⟨"3", "c3", "High", "High", "d3"⟩, [], "t3", "p3", []⟩]),
       ("Low", [⟨⟨"2", "c2", "Low", "High", "d2"⟩, [], "t2", "p2", []⟩])] ∧
    (∀ (vs : List Vulnerability) (raws : List RawDetector) (gs : List Vulnerability_GPT)
      (ds : List VulnerabilityDetail), reportDetails vs raws gs = some ds →
      ds.map (fun d => d.vulnerability) = (vs.zip (raws.zip gs)).map (fun p => p.1)) :=
  ⟨groupByKey_closed_form _ details, by decide, reportDetails_in_input_order⟩

/-- Witness for C6: discharges the loop-order hypothesis at a concrete run. -/
theorem c6_grouping_preserves_input_order_witness :
    reportDetails [⟨"0", "c", "High", "High", "d"⟩] [⟨none⟩] [⟨"0", "t", "e"⟩] =
      some [⟨⟨"0", "c", "High", "High", "d"⟩, [],
        "이 취약점은 c (t) 유형으로, High 수준의 위험도를 가집니다.", "e",
        get_reference_links "c"⟩] ∧
    [(⟨⟨"0", "c", "High", "High", "d"⟩, [],
        "이 취약점은 c (t) 유형으로, High 수준의 위험도를 가집니다.", "e",
        get_reference_links "c"⟩ :
      VulnerabilityDetail)].map (fun d => d.vulnerability) =
      (([⟨"0", "c", "High", "High", "d"⟩] : List Vulnerability).zip
        (([⟨none⟩] : List RawDetector).zip ([⟨"0", "t", "e"⟩] : List Vulnerability_GPT))).map
        (fun p => p.1) :=
  ⟨rfl,
   (c6_grouping_preserves_input_order []).2.2
     [⟨"0", "c", "High", "High", "d"⟩] [⟨none⟩] [⟨"0", "t", "e"⟩]
     [⟨⟨"0", "c", "High", "High", "d"⟩, [],
        "이 취약점은 c (t) 유형으로, High 수준의 위험도를 가집니다.", "e",
        get_reference_links "c"⟩]
     rfl⟩

lemma reportDetails_cons_eq (v : Vulnerability) (vs : List Vulnerability)
    (r : RawDetector) (rs : List RawDetector) (g : Vulnerability_GPT)
    (gs : List Vulnerability_GPT) :
    reportDetails (v :: vs) (r :: rs) (g :: gs) =
      (if v.id = g.id then
        match process v r g with
        | none => none
        | some d => (reportDetails vs rs gs).map (fun ds => d :: ds)
      else none) := rfl

/-- C4 (amended): with location extraction succeeding on every raw record,
the detail-building loop raises the `assert` exactly when some triple in the
zip of the three sequences has mismatched ids; and whenever the loop raises,
`generate_report` produces no report. Triples beyond the shortest sequence
are silently dropped by `zip` and never checked. -/
theorem c4_mismatch_assert_iff (vs : List Vulnerability) (raws : List RawDetector)
    (gs : List Vulnerability_GPT)
    (hex : ∀ r ∈ raws, (extract_code_locations r).isSome) :
    (reportDetails vs raws gs = none ↔
      ∃ p ∈ vs.zip (raws.zip gs), p.1.id ≠ p.2.2.id) ∧
    (∀ summary_gpt, reportDetails vs raws gs = none →
      generate_report vs raws gs summary_gpt = none) := by
  constructor
  · induction vs generalizing raws gs with
    | nil => simp [reportDetails]
    | cons v vs ih =>
      cases raws with
      | nil => simp [reportDetails]
      | cons r rs =>
        cases gs with
        | nil => simp [reportDetails]
        | cons g gs =>
          rw [reportDetails_cons_eq]
          by_cases hid : v.id = g.id
          · rw [if_pos hid]
            have hps : (process v r g).isSome :=
              (process_isSome_iff v r g).mpr (hex r (List.mem_cons_self r rs))
            obtain ⟨d, hd⟩ := Option.isSome_iff_exists.mp hps
            rw [hd]
            have hrec := ih rs gs (fun x hx => hex x (List.mem_cons_of_mem r hx))
            constructor
            · intro h
              have : reportDetails vs rs gs = none := Option.map_eq_none'.mp h
              obtain ⟨p, hp, hne⟩ := hrec.mp this
              exact ⟨p, by simp [List.mem_cons, hp], hne⟩
            · rintro ⟨p, hp, hne⟩
              rcases List.mem_cons.mp (by simpa using hp) with hp | hp
              · exfalso; apply hne; rw [hp]; exact hid
              · rw [Option.map_eq_none']
                exact hrec.mpr ⟨p, hp, hne⟩
          · rw [if_neg hid]
            constructor
            · intro _
              exact ⟨(v, (r, g)), by simp, hid⟩
            · intro _; rfl
  · intro summary_gpt h
    unfold generate_report
    cases hc : calculate vs with
    | none => rfl
    | some s => rw [h]

/-- C4 counterexample: one finding with zero annotations (mismatched
lengths) is silently truncated by `zip`: no assertion fires and a report is
produced, contradicting the claim that report generation fails fatally. -/
theorem c4_zip_truncates_counterexample :
    ([(⟨"A", "c", "High", "High", "d"⟩ : Vulnerability)].length ≠
      ([] : List Vulnerability_GPT).length) ∧
    (generate_report [⟨"A", "c", "High", "High", "d"⟩] [⟨none⟩] [] "s").isSome = true :=
  ⟨by decide, rfl⟩

/-- Witness for the amended C4 at a concrete mismatched-id input. -/
theorem c4_mismatch_assert_iff_witness :
    (∀ r ∈ [(⟨none⟩ : RawDetector)], (extract_code_locations r).isSome) ∧
    reportDetails [⟨"A", "c", "High", "High", "d"⟩] [⟨none⟩] [⟨"B", "t", "e"⟩] = none :=
  ⟨by decide,
   (c4_mismatch_assert_iff [⟨"A", "c", "High", "High", "d"⟩] [⟨none⟩] [⟨"B", "t", "e"⟩]
     (by decide)).1.mpr (by decide)⟩

/-- A Python/JSON scalar value as read back by `json.load`; `null` doubles
as Python `None` (a JSON `null` and an absent key are indistinguishable
through `dict.get`). -/
inductive PyVal
  | null
  | bool (b : Bool)
  | int (n : ℤ)
  | str (s : String)
deriving DecidableEq, Repr

/-- Python `dict.get(k)`: the stored value, or `None` when the key is
absent. -/
def pyGet (d : List (String × PyVal)) (k : String) : PyVal :=
  match d.lookup k with
  | some v => v
  | none => PyVal.null

/-- The two fields of the parsed OpenAI response read by
`process_analysis_result` (report.py lines 616-617). -/
structure LLMResponse where
  summary : PyVal
  detectors : PyVal
deriving DecidableEq, Repr

/-- The hand-off document written to `temp_report_data.json`
(report.py lines 612-621). -/
structure HandoffDoc where
  json_data : List (String × PyVal)
  user_prompt : String
  filename : String
  summary_gpt : PyVal
  detectors_gpt : PyVal
deriving DecidableEq, Repr

/-- `process_analysis_result` (report.py lines 585-634) up to the hand-off
write: `json_data` is the loaded analyzer document (`none` = load failed),
`llm_result` is the oracle outcome of the OpenAI call (`none` = the
`openai_response is None` branch). The returned flag records whether the
OpenAI client was constructed and `prompt_analysis` called; the `Option`
is the hand-off document written for the render phase. -/
def process_analysis_result (filename prompt : String)
    (json_data : Option (List (String × PyVal)))
    (llm_result : Option LLMResponse) : Bool × Option HandoffDoc :=
  match json_data with
  | none => (false, none)
  | some d =>
    if pyGet d "success" ≠ PyVal.bool true then (false, none)
    else if pyGet d "error" ≠ PyVal.null then (false, none)
    else
      match llm_result with
      | none => (true, none)
      | some resp => (true, some ⟨d, prompt, filename, resp.summary, resp.detectors⟩)

lemma process_analysis_result_some (filename prompt : String)
    (d : List (String × PyVal)) (llm_result : Option LLMResponse) :
    process_analysis_result filename prompt (some d) llm_result =
      (if pyGet d "success" ≠ PyVal.bool true then (false, none)
       else if pyGet d "error" ≠ PyVal.null then (false, none)
       else match llm_result with
         | none => (true, none)
         | some resp => (true, some ⟨d, prompt, filename, resp.summary, resp.detectors⟩)) := rfl

/-- C5: when the analyzer document's success flag is not `true` or its error
field is non-null, `process_analysis_result` returns before the OpenAI
client is constructed (no LLM call) and writes no hand-off document. -/
theorem c5_failed_analysis_aborts_before_llm (filename prompt : String)
    (d : List (String × PyVal)) (llm_result : Option LLMResponse)
    (h : pyGet d "success" ≠ PyVal.bool true ∨ pyGet d "error" ≠ PyVal.null) :
    process_analysis_result filename prompt (some d) llm_result = (false, none) := by
  rw [process_analysis_result_some]
  split_ifs with h1 h2
  · rfl
  · rfl
  · exfalso
    rcases h with h | h
    · exact h1 h
    · exact h2 h

/-- Witness for C5 at a document with `success: false`. -/
theorem c5_failed_analysis_aborts_before_llm_witness :
    (pyGet [("success", PyVal.bool false)] "success" ≠ PyVal.bool true ∨
      pyGet [("success", PyVal.bool false)] "error" ≠ PyVal.null) ∧
    process_analysis_result "f.sol" "p" (some [("success", PyVal.bool false)]) none =
      (false, none) :=
  ⟨Or.inl (by decide),
   c5_failed_analysis_aborts_before_llm "f.sol" "p" [("success", PyVal.bool false)] none
     (Or.inl (by decide))⟩

/-- `RESULT_DIR` of main.py line 11. -/
def RESULT_DIR : String := "slither_results"

/-- `report_path = RESULT_DIR / f"{sol_file_path.stem}.json"` (main.py
line 16), as a string path. -/
def report_path (stem : String) : String := RESULT_DIR ++ "/" ++ stem ++ ".json"

/-- The value passed to the analyzer's `--json` option (main.py line 19):
the f-string interpolates `report_path` and then appends a second literal
".json". -/
def slither_json_arg (stem : String) : String := report_path stem ++ ".json"

/-- `run_slither_analysis` (main.py lines 14-29), abstracting the subprocess
by its exit code and the filesystem by an existence predicate: raise on a
nonzero exit code, then raise if `report_path` does not exist, else return
`report_path`. -/
def run_slither_analysis (stem : String) (returncode : ℤ)
    (fileExists : String → Bool) : Except String String :=
  if returncode ≠ 0 then
    Except.error "Slither 분석 실패"
  else if !fileExists (report_path stem) then
    Except.error "Slither 결과 파일이 생성되지 않았습니다."
  else
    Except.ok (report_path stem)

/-- C8 counterexample: a nonzero exit code fails the run even though the
expected output file exists, so the run's failure is not equivalent to the
output file's absence: the exit code is checked (main.py lines 23-24), not
ignored. -/
theorem c8_exit_code_counterexample :
    run_slither_analysis "contract" 1 (fun _ => true) = Except.error "Slither 분석 실패" ∧
    (fun (_ : String) => true) (report_path "contract") = true :=
  ⟨rfl, rfl⟩

/-- C8 (amended): `run_slither_analysis` checks the subprocess exit code
first and the output file second: the run succeeds exactly when the exit
code is zero and the expected output file exists. -/
theorem c8_failure_iff_exit_or_missing (stem : String) (returncode : ℤ)
    (fileExists : String → Bool) :
    (∃ out, run_slither_analysis stem returncode fileExists = Except.ok out) ↔
      (returncode = 0 ∧ fileExists (report_path stem) = true) := by
  unfold run_slither_analysis
  split_ifs with h1 h2
  · simp only [reduceCtorEq, exists_false, false_iff]
    rintro ⟨h, _⟩
    exact h1 h
  · simp only [reduceCtorEq, exists_false, false_iff]
    rintro ⟨_, h⟩
    simp [h] at h2
  · push_neg at h1
    simp only [Bool.not_eq_true] at h2
    simp only [Except.ok.injEq, exists_eq', true_iff]
    exact ⟨h1, by simpa using h2⟩

/-- C9: the `--json` argument is `report_path` with ".json" appended, so it
ends in ".json.json" and can never equal `report_path` itself; the path the
function then checks for existence and returns is `report_path`, a file the
analyzer was not instructed to write. -/
theorem c9_json_arg_never_checked_path (stem : String) :
    slither_json_arg stem = report_path stem ++ ".json" ∧
    (∃ p, slither_json_arg stem = p ++ ".json.json") ∧
    slither_json_arg stem ≠ report_path stem ∧
    (∀ (returncode : ℤ) (fileExists : String → Bool) (out : String),
      run_slither_analysis stem returncode fileExists = Except.ok out →
        out = report_path stem ∧ out ≠ slither_json_arg stem) := by
  have hne : slither_json_arg stem ≠ report_path stem := by
    intro h
    have hlen := congrArg String.length h
    rw [slither_json_arg] at hlen
    rw [String.length_append] at hlen
    have h5 : (".json" : String).length = 5 := rfl
    rw [h5] at hlen
    omega
  refine ⟨rfl, ⟨RESULT_DIR ++ "/" ++ stem, ?_⟩, hne, ?_⟩
  · show (RESULT_DIR ++ "/" ++ stem ++ ".json") ++ ".json" = RESULT_DIR ++ "/" ++ stem ++ ".json.json"
    rw [String.append_assoc]
    rfl
  · intro returncode fileExists out h
    unfold run_slither_analysis at h
    split_ifs at h
    exact ⟨(Except.ok.inj h).symm, by rw [← Except.ok.inj h]; exact hne.symm⟩

/-- Witness for C9 at a successful concrete run. -/
theorem c9_json_arg_never_checked_path_witness :
    run_slither_analysis "contract" 0 (fun _ => true) = Except.ok (report_path "contract") ∧
    (report_path "contract" = report_path "contract" ∧
      report_path "contract" ≠ slither_json_arg "contract") :=
  ⟨rfl, (c9_json_arg_never_checked_path "contract").2.2.2 0 (fun _ => true)
    (report_path "contract") rfl⟩

end SmartSecure
